import Mathlib

/-!
Verification of the Blaze4D GPU object-lifetime subsystem
(`src/objects/manager/mod.rs`) and of its foreign-function boundary
(`src/c_api.rs`).

The Rust driver code of `mod.rs` (the loops `create_resource_objects`,
`abort_resource_objects`, `reduce_resource_objects`,
`destroy_resource_objects`, `build_resource_objects`,
`create_synchronization_group`, `create_resource_object_set` and the
`PartialEq` instance of `ObjectManager`) is embedded directly.  The per-slot
operations (`ResourceObjectCreateMetadata::create/abort/reduce`), the
`SynchronizationGroup` type and the `Splitter` live in repository files that
are not part of the sample (`resource_object_set.rs`,
`synchronization_group.rs`, `slice_splitter.rs`); those are modelled from the
specification, with a doc comment saying so on each such definition.

Device and allocator effects are made observable through an explicit state
`St` carrying an event trace, a set of live allocations and fresh-id
counters, so that ordering claims (ascending creation, descending abort,
reverse-order destruction) become statements about the trace.
-/

namespace B4D

/-- Observable events of a batch build / destroy run.  `createCall i others`
records that the driver invoked `create` on slot `i` while the `Splitter`
offered read-only access to the slots listed in `others`; `abortCall i`
records an `abort` invocation on slot `i`; `release i a` records that slot
`i`'s abort released allocation `a` back to the allocator; `destroyCall h`
records per-object destruction of the object with device handle `h`;
`freeAlloc a` records `allocator.free(a)`. -/
inductive Event : Type where
  | createCall (i : Nat) (others : List Nat)
  | abortCall (i : Nat)
  | release (i : Nat) (alloc : Nat)
  | destroyCall (handle : Nat)
  | freeAlloc (alloc : Nat)
deriving DecidableEq, Repr

/-- Explicit device/allocator state threaded through the embedded code:
fresh-handle and fresh-allocation counters, the set of live allocations and
the event trace. -/
structure St : Type where
  nextHandle : Nat
  nextAlloc : Nat
  live : Finset Nat
  events : List Event
deriving DecidableEq

def St.emit (st : St) (e : Event) : St :=
  { st with events := st.events ++ [e] }

/-- Allocator `allocate`: hands out a fresh allocation id and marks it live. -/
def St.allocate (st : St) : Nat × St :=
  (st.nextAlloc,
    { st with nextAlloc := st.nextAlloc + 1, live := insert st.nextAlloc st.live })

/-- Device object creation: hands out a fresh device handle. -/
def St.newHandle (st : St) : Nat × St :=
  (st.nextHandle, { st with nextHandle := st.nextHandle + 1 })

/-- Allocator `free`: removes an allocation from the live set. -/
def St.free (st : St) (a : Nat) : St :=
  { st with live := st.live.erase a }

/-- Modelled from the spec: transient per-object create-time state
(`ResourceObjectCreateMetadata`, `resource_object_set.rs` is not in the
sample).  `plan` abstracts the queued description: `none` means this slot's
`create` fails (driver rejects parameters / allocation failure), `some b`
means it succeeds and `b` says whether it needs a dedicated device
allocation.  `handle` and `allocation` are the transient state filled in by
`create` and cleared by `abort`. -/
structure ResourceObjectCreateMetadata : Type where
  plan : Option Bool
  handle : Option Nat
  allocation : Option Nat
deriving DecidableEq, Repr

/-- A freshly queued description: no transient state yet. -/
def ResourceObjectCreateMetadata.ofPlan (p : Option Bool) :
    ResourceObjectCreateMetadata :=
  ⟨p, none, none⟩

/-- Modelled from the spec: the `Splitter` (`util/slice_splitter.rs` is not
in the sample).  Given the whole slice and the excluded index it offers
read-only access to every element other than the excluded one, each still
addressable by its original index. -/
structure Splitter (α : Type) : Type where
  elems : List α
  excluded : Nat

/-- Read-only access to slot `j`: `none` exactly when `j` is the excluded
(mutably borrowed) index or out of range. -/
def Splitter.get {α : Type} (s : Splitter α) (j : Nat) : Option α :=
  if j = s.excluded then none else s.elems.get? j

/-- The indices the splitter exposes read-only. -/
def Splitter.indices {α : Type} (s : Splitter α) : List Nat :=
  (List.range s.elems.length).filter (fun j => j != s.excluded)

/-- Modelled from the spec: slot `create` — may allocate device memory via
the allocator, calls the device to construct the object (fresh handle), may
read dependency slots through the splitter, fails when the description is
rejected. -/
def ResourceObjectCreateMetadata.create
    (m : ResourceObjectCreateMetadata)
    (_sp : Splitter ResourceObjectCreateMetadata) (st : St) :
    Except Unit (ResourceObjectCreateMetadata × St) :=
  match m.plan with
  | none => .error ()
  | some needsAlloc =>
    if needsAlloc then
      let (a, st) := st.allocate
      let (h, st) := st.newHandle
      .ok ({ m with handle := some h, allocation := some a }, st)
    else
      let (h, st) := st.newHandle
      .ok ({ m with handle := some h, allocation := none }, st)

/-- Modelled from the spec: slot `abort` — releases any partial device
resource/allocation the slot had already acquired; a no-op (beyond the call
itself) on slots that never created anything.  `i` is the slot's index,
recorded in the trace. -/
def ResourceObjectCreateMetadata.abort
    (m : ResourceObjectCreateMetadata) (i : Nat) (st : St) :
    ResourceObjectCreateMetadata × St :=
  let st := st.emit (.abortCall i)
  match m.allocation with
  | some a =>
      ({ m with handle := none, allocation := none },
        (st.emit (.release i a)).free a)
  | none => ({ m with handle := none }, st)

/-- Built immutable representation of one object: the device handle plus
enough to destroy it (`ResourceObjectData`). -/
structure ResourceObjectData : Type where
  handle : Nat
deriving DecidableEq, Repr

/-- Modelled from the spec: slot `reduce` — splits the transient state into
the immutable `ResourceObjectData` and the optional retained `Allocation`. -/
def ResourceObjectCreateMetadata.reduce (m : ResourceObjectCreateMetadata) :
    ResourceObjectData × Option Nat :=
  (⟨m.handle.getD 0⟩, m.allocation)

/-- Per-object destruction (`ResourceObjectData::destroy`): a device call
recorded in the trace. -/
def ResourceObjectData.destroy (d : ResourceObjectData) (st : St) : St :=
  st.emit (.destroyCall d.handle)

/-- Embedding of the loop body of `ObjectManagerImpl::create_resource_objects`
(`mod.rs` lines 78–84): `for i in 0..objects.len() { let (splitter, current)
= Splitter::new(objects, i); current.create(device, allocator, splitter)? }`.
`done` is the already-processed front of the slice, so the loop index is
`done.length`; the splitter is built over the whole current slice with the
loop index excluded, and the `?` gives early return on the first failing
`create`.  The `Bool` mirrors `Result<(), ObjectCreateError>` (`true` = Ok). -/
def createLoop (st : St) (done rest : List ResourceObjectCreateMetadata) :
    St × List ResourceObjectCreateMetadata × Bool :=
  match rest with
  | [] => (st, done, true)
  | cur :: rest' =>
    let i := done.length
    let all := done ++ cur :: rest'
    let sp : Splitter ResourceObjectCreateMetadata := ⟨all, i⟩
    let st := st.emit (.createCall i sp.indices)
    match cur.create sp st with
    | .error _ => (st, all, false)
    | .ok (cur', st') => createLoop st' (done ++ [cur']) rest'

/-- `ObjectManagerImpl::create_resource_objects` (`mod.rs` lines 78–84). -/
def ObjectManagerImpl.create_resource_objects (st : St)
    (objects : List ResourceObjectCreateMetadata) :
    St × List ResourceObjectCreateMetadata × Bool :=
  createLoop st [] objects

/-- Helper for `abort_resource_objects`: `objects.iter_mut().rev()` means the
element at the highest index is aborted first, so the recursion processes the
tail (higher indices) before the head.  `i` is the original index of the head
of `objects`. -/
def abortFrom (st : St) (i : Nat)
    (objects : List ResourceObjectCreateMetadata) :
    St × List ResourceObjectCreateMetadata :=
  match objects with
  | [] => (st, [])
  | m :: rest =>
    let (st', rest') := abortFrom st (i + 1) rest
    let (m', st'') := m.abort i st'
    (st'', m' :: rest')

/-- `ObjectManagerImpl::abort_resource_objects` (`mod.rs` lines 86–90):
`for object in objects.iter_mut().rev() { object.abort(device, allocator) }`. -/
def ObjectManagerImpl.abort_resource_objects (st : St)
    (objects : List ResourceObjectCreateMetadata) :
    St × List ResourceObjectCreateMetadata :=
  abortFrom st 0 objects

/-- `ObjectManagerImpl::reduce_resource_objects` (`mod.rs` lines 92–107):
push every slot's data; push its allocation only when it is `Some`. -/
def ObjectManagerImpl.reduce_resource_objects
    (objects : List ResourceObjectCreateMetadata) :
    List ResourceObjectData × List Nat :=
  match objects with
  | [] => ([], [])
  | m :: rest =>
    let (d, alloc) := m.reduce
    let (ds, allocs) := ObjectManagerImpl.reduce_resource_objects rest
    (d :: ds,
      match alloc with
      | some a => a :: allocs
      | none => allocs)

/-- Helper for `destroy_resource_objects`: `objects.into_iter().rev()`
destroys the last-built object first. -/
def destroyLoop (st : St) (objects : List ResourceObjectData) : St :=
  match objects with
  | [] => st
  | d :: rest => (destroyLoop st rest).emit (.destroyCall d.handle)

/-- Helper for `destroy_resource_objects`: free the retained allocations in
order. -/
def freeLoop (st : St) (allocations : List Nat) : St :=
  match allocations with
  | [] => st
  | a :: rest => freeLoop ((st.emit (.freeAlloc a)).free a) rest

/-- `ObjectManagerImpl::destroy_resource_objects` (`mod.rs` lines 109–116):
destroy the objects in reverse order, then free every allocation. -/
def ObjectManagerImpl.destroy_resource_objects (st : St)
    (objects : List ResourceObjectData) (allocations : List Nat) : St :=
  freeLoop (destroyLoop st objects) allocations

/-- `ObjectManager::build_resource_objects` (`mod.rs` lines 152–160): run the
create pass; on error abort everything and panic (modelled as `Except.error`
— no result is produced); on success reduce. -/
def ObjectManager.build_resource_objects (st : St)
    (objects : List ResourceObjectCreateMetadata) :
    St × Except Unit (List ResourceObjectData × List Nat) :=
  match ObjectManagerImpl.create_resource_objects st objects with
  | (st1, objects1, ok) =>
    if ok then (st1, .ok (ObjectManagerImpl.reduce_resource_objects objects1))
    else
      match ObjectManagerImpl.abort_resource_objects st1 objects1 with
      | (st2, _) => (st2, .error ())

/-! Device model for semaphores: `vk::create_semaphore` hands out a fresh
handle and records the semaphore's type and initial value;
`vk::destroy_semaphore` removes it. -/

inductive SemaphoreType : Type where
  | binary
  | timeline
deriving DecidableEq, Repr

structure SemaphoreInfo : Type where
  ty : SemaphoreType
  initialValue : Nat
deriving DecidableEq, Repr

structure DeviceState : Type where
  nextSem : Nat
  semaphores : List (Nat × SemaphoreInfo)
deriving DecidableEq, Repr

def DeviceState.create_semaphore (d : DeviceState) (info : SemaphoreInfo) :
    Nat × DeviceState :=
  (d.nextSem,
    { nextSem := d.nextSem + 1, semaphores := (d.nextSem, info) :: d.semaphores })

/-- Look up the recorded info of a semaphore handle. -/
def DeviceState.find (d : DeviceState) (s : Nat) : Option SemaphoreInfo :=
  (d.semaphores.find? (fun p => p.1 == s)).map (fun p => p.2)

/-- Every recorded semaphore handle is below the fresh-handle counter. -/
def DeviceState.wf (d : DeviceState) : Prop :=
  ∀ p ∈ d.semaphores, p.1 < d.nextSem

instance (d : DeviceState) : Decidable d.wf := by
  unfold DeviceState.wf; infer_instance

/-- `ObjectManager` handle: identity is the generated `UUID` (`mod.rs` lines
42–46, modelled as a `Nat`). -/
structure ObjectManager : Type where
  uuid : Nat
deriving DecidableEq, Repr

/-- `impl PartialEq for ObjectManager` (`mod.rs` lines 173–177): equality of
the generated uuids. -/
def ObjectManager.eq (a b : ObjectManager) : Bool :=
  a.uuid == b.uuid

/-- `ObjectManagerImpl::create_group_semaphore` (`mod.rs` lines 60–69):
creates a TIMELINE-type semaphore with the given initial value. -/
def ObjectManagerImpl.create_group_semaphore (d : DeviceState)
    (initial_value : Nat) : Nat × DeviceState :=
  d.create_semaphore ⟨.timeline, initial_value⟩

/-- Modelled from the spec: `SynchronizationGroup`
(`synchronization_group.rs` is not in the sample).  Identity is the
semaphore handle plus the owning manager; it holds a handle to its owning
manager, exposed by `get_manager`. -/
structure SynchronizationGroup : Type where
  manager : ObjectManager
  semaphore : Nat
deriving DecidableEq, Repr

/-- Modelled from the spec: `SynchronizationGroup::new(manager, semaphore)`
(manager-internal constructor). -/
def SynchronizationGroup.new (manager : ObjectManager) (semaphore : Nat) :
    SynchronizationGroup :=
  ⟨manager, semaphore⟩

def SynchronizationGroup.get_manager (g : SynchronizationGroup) :
    ObjectManager :=
  g.manager

/-- Modelled from the spec: `PartialEq` of `SynchronizationGroup` — equal iff
they reference the same semaphore under the same manager. -/
def SynchronizationGroup.eq (a b : SynchronizationGroup) : Bool :=
  a.semaphore == b.semaphore && ObjectManager.eq a.manager b.manager

/-- `ObjectManager::create_synchronization_group` (`mod.rs` lines 131–133):
`SynchronizationGroup::new(self.clone(), self.0.create_group_semaphore(0))`. -/
def ObjectManager.create_synchronization_group (m : ObjectManager)
    (d : DeviceState) : SynchronizationGroup × DeviceState :=
  match ObjectManagerImpl.create_group_semaphore d 0 with
  | (sem, d') => (SynchronizationGroup.new m sem, d')

/-- Builder bound to one synchronization group, accumulating queued
descriptions (`ResourceObjectSetBuilder`, fields per the spec). -/
structure ResourceObjectSetBuilder : Type where
  synchronization_group : SynchronizationGroup
  requests : List ResourceObjectCreateMetadata
deriving DecidableEq, Repr

/-- Modelled from the spec: `ResourceObjectSetBuilder::new(group)` — an empty
builder bound to the group. -/
def ResourceObjectSetBuilder.new (g : SynchronizationGroup) :
    ResourceObjectSetBuilder :=
  ⟨g, []⟩

/-- `ObjectManager::create_resource_object_set` (`mod.rs` lines 139–145):
panics (modelled as `Except.error`) when the group belongs to a different
manager, otherwise returns a fresh builder bound to the group.  It makes no
device call (it does not touch any device or allocator state). -/
def ObjectManager.create_resource_object_set (m : ObjectManager)
    (g : SynchronizationGroup) : Except String ResourceObjectSetBuilder :=
  if ObjectManager.eq g.get_manager m then .ok (ResourceObjectSetBuilder.new g)
  else .error "Synchronization group belongs to different object manager"

/-- Immutable, fully built batch: ordered object data, retained allocations
and the protecting synchronization group (`ResourceObjectSet`). -/
structure ResourceObjectSet : Type where
  synchronization_group : SynchronizationGroup
  objects : List ResourceObjectData
  allocations : List Nat
deriving DecidableEq, Repr

/-- Modelled from the spec: `ResourceObjectSetBuilder::build` — hand the
queued descriptions to the manager's `build_resource_objects` and bind the
two resulting sequences plus the builder's group into a `ResourceObjectSet`. -/
def ResourceObjectSetBuilder.build (b : ResourceObjectSetBuilder) (st : St) :
    St × Except Unit ResourceObjectSet :=
  match ObjectManager.build_resource_objects st b.requests with
  | (st', .ok (data, allocs)) =>
      (st', .ok ⟨b.synchronization_group, data, allocs⟩)
  | (st', .error e) => (st', .error e)

/-- Modelled from the spec: destruction of a `ResourceObjectSet` delegates to
the manager's `destroy_resource_objects` on its objects and allocations. -/
def ResourceObjectSet.destroy (s : ResourceObjectSet) (st : St) : St :=
  ObjectManagerImpl.destroy_resource_objects st s.objects s.allocations

/-! Foreign boundary (`src/c_api.rs`).  Raw pointers are modelled as
`CPtr α` (`null` or a valid pointee); `exit(1)` after a `log::error!` is
modelled as the `terminated` outcome carrying the log message — a
termination never returns a value to the foreign caller. -/

inductive CPtr (α : Type) : Type where
  | null
  | valid (a : α)
deriving DecidableEq, Repr

/-- Outcome of a foreign-boundary entry point: either a normal return value
or termination of the calling process (with the error-log line and the exit
code). -/
inductive FfiResult (α : Type) : Type where
  | ret (a : α)
  | terminated (log : String) (code : Nat)
deriving DecidableEq, Repr

def FfiResult.isRet {α : Type} : FfiResult α → Bool
  | .ret _ => true
  | .terminated _ _ => false

/-- `MeshData` (field-for-field from the struct built in
`CMeshData::to_mesh_data`, `c_api.rs` lines 37–43); byte buffers are byte
lists, the index type is the `vk::IndexType` code. -/
inductive IndexType : Type where
  | uint16
  | uint32
deriving DecidableEq, Repr

structure MeshData : Type where
  vertex_data : List Nat
  index_data : List Nat
  vertex_stride : Nat
  index_count : Nat
  index_type : IndexType
deriving DecidableEq, Repr

/-- `CMeshData` (`c_api.rs` lines 15–24): the data pointers (with their
lengths) are modelled as optional byte lists, `none` being a null pointer. -/
structure CMeshData : Type where
  vertex_data : Option (List Nat)
  index_data : Option (List Nat)
  vertex_stride : Nat
  index_count : Nat
deriving DecidableEq, Repr

/-- `CMeshData::to_mesh_data` (`c_api.rs` lines 26–45): panics (modelled as
`Except.error` carrying the logged message) on a null data pointer, otherwise
builds a `MeshData` with `index_type` fixed to `UINT16`. -/
def CMeshData.to_mesh_data (c : CMeshData) : Except String MeshData :=
  match c.vertex_data with
  | none => .error "Vertex data pointer is null"
  | some vd =>
    match c.index_data with
    | none => .error "Index data pointer is null"
    | some idxd => .ok ⟨vd, idxd, c.vertex_stride, c.index_count, .uint16⟩

/-- Modelled from the spec: the out-of-scope core consumed by the boundary
(`Blaze4D`, `b4d.rs` is not in the sample).  `init_faults` abstracts whether
`Blaze4D::new` panics; `create_static_mesh` may fault (panic) or yield a mesh
id; `try_start_frame` may yield a pass recorder or `None`. -/
structure PassRecorder : Type where
  id : Nat
deriving DecidableEq, Repr

structure Blaze4D : Type where
  create_static_mesh : MeshData → Except Unit Nat
  try_start_frame : Nat × Nat → Option PassRecorder

/-- `b4d_init` (`c_api.rs` lines 73–89): terminate on a null surface;
terminate when the wrapped call panics; otherwise return a (non-null) leaked
box.  `mk` abstracts `Blaze4D::new` on the given surface: `none` models a
panic inside it. -/
def b4d_init {σ : Type} (surface : CPtr σ) (mk : σ → Option Blaze4D) :
    FfiResult (CPtr Blaze4D) :=
  match surface with
  | .null => .terminated "Passed null surface to b4d_init" 1
  | .valid s =>
    match mk s with
    | none => .terminated "panic in b4d_init" 1
    | some b => .ret (.valid b)

/-- `b4d_create_static_mesh` (`c_api.rs` lines 131–149): terminate on a null
`b4d` or a null mesh-data pointer; a panic inside `to_mesh_data` or inside
the core's `create_static_mesh` is caught and converted to termination;
otherwise return the raw mesh id. -/
def b4d_create_static_mesh (b4d : CPtr Blaze4D) (data : CPtr CMeshData) :
    FfiResult Nat :=
  match b4d with
  | .null => .terminated "Passed null b4d to b4d_create_static_mesh" 1
  | .valid b =>
    match data with
    | .null => .terminated "Passed null mesh data to b4d_create_static_mesh" 1
    | .valid d =>
      match d.to_mesh_data with
      | .error _ => .terminated "panic in b4d_create_static_mesh" 1
      | .ok md =>
        match b.create_static_mesh md with
        | .error _ => .terminated "panic in b4d_create_static_mesh" 1
        | .ok meshId => .ret meshId

/-- `b4d_start_frame` (`c_api.rs` lines 170–185): terminate on a null `b4d`;
otherwise map `try_start_frame`'s `None` to the null pointer and `Some
recorder` to a freshly leaked (hence non-null) pointer to the recorder. -/
def b4d_start_frame (b4d : CPtr Blaze4D) (window_width window_height : Nat) :
    FfiResult (CPtr PassRecorder) :=
  match b4d with
  | .null => .terminated "Passed null b4d to b4d_start_frame" 1
  | .valid b =>
    match b.try_start_frame (window_width, window_height) with
    | none => .ret .null
    | some recorder => .ret (.valid recorder)

/-! Trace extraction and spec-side helper functions. -/

/-- The `createCall` events of a trace, as (index, read-only indices) pairs. -/
def createCalls (es : List Event) : List (Nat × List Nat) :=
  es.filterMap fun e =>
    match e with
    | .createCall i others => some (i, others)
    | _ => none

/-- The slot indices on which `abort` was invoked, in trace order. -/
def abortCallIdxs (es : List Event) : List Nat :=
  es.filterMap fun e =>
    match e with
    | .abortCall i => some i
    | _ => none

/-- The slot indices whose abort released an allocation, in trace order. -/
def releaseIdxs (es : List Event) : List Nat :=
  es.filterMap fun e =>
    match e with
    | .release i _ => some i
    | _ => none

/-- The device handles destroyed, in trace order. -/
def destroyedHandles (es : List Event) : List Nat :=
  es.filterMap fun e =>
    match e with
    | .destroyCall h => some h
    | _ => none

/-- The allocations freed back to the allocator, in trace order. -/
def freedAllocs (es : List Event) : List Nat :=
  es.filterMap fun e =>
    match e with
    | .freeAlloc a => some a
    | _ => none

/-- The indices a splitter over `n` slots with slot `i` excluded exposes
read-only: every index other than `i`. -/
def othersIdx (n i : Nat) : List Nat :=
  (List.range n).filter (fun j => j != i)

/-- Number of `create` invocations the driver performs on a batch of queued
plans: one per slot up to and including the first failing slot, one per slot
when none fails. -/
def createCount : List (Option Bool) → Nat
  | [] => 0
  | none :: _ => 1
  | some _ :: rest => 1 + createCount rest

/-- Indices (offset by `i`) of the plans that require a dedicated allocation,
ascending. -/
def trueIdxs (i : Nat) : List (Option Bool) → List Nat
  | [] => []
  | some true :: rest => i :: trueIdxs (i + 1) rest
  | _ :: rest => trueIdxs (i + 1) rest

/-- The slots as the create pass leaves them when run on freshly queued
plans, handles counted from `hc` and allocations from `ac`: every slot up to
the first failure carries its fresh handle and (when requested) its fresh
allocation; the failing slot and everything after it are untouched. -/
def createdList (hc ac : Nat) : List (Option Bool) →
    List ResourceObjectCreateMetadata
  | [] => []
  | none :: rest =>
      ResourceObjectCreateMetadata.ofPlan none ::
        rest.map ResourceObjectCreateMetadata.ofPlan
  | some true :: rest =>
      ⟨some true, some hc, some ac⟩ :: createdList (hc + 1) (ac + 1) rest
  | some false :: rest =>
      ⟨some false, some hc, none⟩ :: createdList (hc + 1) ac rest

/-- The allocations held by a list of slots, as a set. -/
def allocsOf (xs : List ResourceObjectCreateMetadata) : Finset Nat :=
  (xs.filterMap (fun m => m.allocation)).toFinset

/-- The events the abort pass emits over slots `xs` whose head has original
index `i`: the highest index is aborted first, and a slot holding an
allocation also emits a `release`. -/
def abortTrace (i : Nat) : List ResourceObjectCreateMetadata → List Event
  | [] => []
  | m :: rest =>
    abortTrace (i + 1) rest ++
      Event.abortCall i ::
        (match m.allocation with
         | some a => [Event.release i a]
         | none => [])

/-- Original indices (head at `i`) of the slots holding an allocation,
ascending. -/
def allocIdxs (i : Nat) : List ResourceObjectCreateMetadata → List Nat
  | [] => []
  | m :: rest =>
    (match m.allocation with
     | some _ => [i]
     | none => []) ++ allocIdxs (i + 1) rest

/-! Lemmas about the abort pass. -/

lemma abortFrom_events (xs : List ResourceObjectCreateMetadata) :
    ∀ (st : St) (i : Nat),
      (abortFrom st i xs).1.events = st.events ++ abortTrace i xs := by
  induction xs with
  | nil => intro st i; simp [abortFrom, abortTrace]
  | cons m rest ih =>
    intro st i
    simp only [abortFrom, abortTrace]
    cases h : m.allocation with
    | none =>
      simp [ResourceObjectCreateMetadata.abort, h, St.emit, ih st (i + 1)]
    | some a =>
      simp [ResourceObjectCreateMetadata.abort, h, St.emit, St.free,
        ih st (i + 1)]

lemma abortFrom_live (xs : List ResourceObjectCreateMetadata) :
    ∀ (st : St) (i : Nat),
      (abortFrom st i xs).1.live = st.live \ allocsOf xs := by
  induction xs with
  | nil => intro st i; simp [abortFrom, allocsOf]
  | cons m rest ih =>
    intro st i
    simp only [abortFrom]
    cases h : m.allocation with
    | none =>
      have hall : allocsOf (m :: rest) = allocsOf rest := by
        simp [allocsOf, h]
      simp [ResourceObjectCreateMetadata.abort, h, St.emit, hall,
        ih st (i + 1)]
    | some a =>
      have hall : allocsOf (m :: rest) = insert a (allocsOf rest) := by
        simp [allocsOf, h]
      simp only [ResourceObjectCreateMetadata.abort, h, St.emit, St.free,
        ih st (i + 1), hall]
      ext b
      simp only [Finset.mem_erase, Finset.mem_sdiff, Finset.mem_insert]
      tauto

lemma abortCallIdxs_abortTrace (xs : List ResourceObjectCreateMetadata) :
    ∀ i : Nat,
      abortCallIdxs (abortTrace i xs) = (List.range' i xs.length).reverse := by
  induction xs with
  | nil => intro i; simp [abortTrace, abortCallIdxs]
  | cons m rest ih =>
    intro i
    simp only [abortTrace, abortCallIdxs, List.filterMap_append]
    cases h : m.allocation with
    | none =>
      simp only [abortCallIdxs] at ih
      simp [h, ih, List.length_cons, List.range'_succ]
    | some a =>
      simp only [abortCallIdxs] at ih
      simp [h, ih, List.length_cons, List.range'_succ]

lemma releaseIdxs_abortTrace (xs : List ResourceObjectCreateMetadata) :
    ∀ i : Nat,
      releaseIdxs (abortTrace i xs) = (allocIdxs i xs).reverse := by
  induction xs with
  | nil => intro i; simp [abortTrace, releaseIdxs, allocIdxs]
  | cons m rest ih =>
    intro i
    simp only [abortTrace, releaseIdxs, List.filterMap_append]
    cases h : m.allocation with
    | none =>
      simp only [releaseIdxs] at ih
      simp [h, ih, allocIdxs]
    | some a =>
      simp only [releaseIdxs] at ih
      simp [h, ih, allocIdxs]

/-! Case-unfolding lemmas for the create loop. -/

lemma createLoop_nil (st : St) (done : List ResourceObjectCreateMetadata) :
    createLoop st done [] = (st, done, true) := rfl

lemma createLoop_cons_fail (st : St)
    (done rest' : List ResourceObjectCreateMetadata)
    (cur : ResourceObjectCreateMetadata) (h : cur.plan = none) :
    createLoop st done (cur :: rest') =
      (st.emit (.createCall done.length
          (Splitter.indices ⟨done ++ cur :: rest', done.length⟩)),
        done ++ cur :: rest', false) := by
  cases cur with
  | mk plan handle allocation =>
    cases h
    rfl

lemma createLoop_cons_true (st : St)
    (done rest' : List ResourceObjectCreateMetadata)
    (cur : ResourceObjectCreateMetadata) (h : cur.plan = some true) :
    createLoop st done (cur :: rest') =
      createLoop
        ⟨st.nextHandle + 1, st.nextAlloc + 1, insert st.nextAlloc st.live,
          st.events ++ [.createCall done.length
            (Splitter.indices ⟨done ++ cur :: rest', done.length⟩)]⟩
        (done ++
          [{ cur with
              handle := some st.nextHandle,
              allocation := some st.nextAlloc }])
        rest' := by
  cases cur with
  | mk plan handle allocation =>
    cases h
    rfl

lemma createLoop_cons_false (st : St)
    (done rest' : List ResourceObjectCreateMetadata)
    (cur : ResourceObjectCreateMetadata) (h : cur.plan = some false) :
    createLoop st done (cur :: rest') =
      createLoop
        ⟨st.nextHandle + 1, st.nextAlloc, st.live,
          st.events ++ [.createCall done.length
            (Splitter.indices ⟨done ++ cur :: rest', done.length⟩)]⟩
        (done ++
          [{ cur with handle := some st.nextHandle, allocation := none }])
        rest' := by
  cases cur with
  | mk plan handle allocation =>
    cases h
    rfl

/-- The splitter over the whole slice exposes exactly the other indices. -/
lemma splitter_indices (xs : List ResourceObjectCreateMetadata) (i : Nat) :
    Splitter.indices (⟨xs, i⟩ : Splitter ResourceObjectCreateMetadata) =
      othersIdx xs.length i := rfl

/-! Lemmas about `allocsOf`, `createdList` and `allocIdxs`. -/

lemma allocsOf_cons_none (m : ResourceObjectCreateMetadata)
    (xs : List ResourceObjectCreateMetadata) (h : m.allocation = none) :
    allocsOf (m :: xs) = allocsOf xs := by
  simp [allocsOf, h]

lemma allocsOf_cons_some (m : ResourceObjectCreateMetadata) (a : Nat)
    (xs : List ResourceObjectCreateMetadata) (h : m.allocation = some a) :
    allocsOf (m :: xs) = insert a (allocsOf xs) := by
  simp [allocsOf, h]

lemma allocsOf_map_ofPlan (ps : List (Option Bool)) :
    allocsOf (ps.map ResourceObjectCreateMetadata.ofPlan) = ∅ := by
  induction ps with
  | nil => rfl
  | cons p rest ih =>
    rw [List.map_cons,
      allocsOf_cons_none _ _ (by rfl : (ResourceObjectCreateMetadata.ofPlan p).allocation = none)]
    exact ih

lemma createdList_length (plans : List (Option Bool)) :
    ∀ hc ac : Nat, (createdList hc ac plans).length = plans.length := by
  induction plans with
  | nil => intro hc ac; rfl
  | cons p rest ih =>
    intro hc ac
    cases p with
    | none => simp [createdList]
    | some b => cases b <;> simp [createdList, ih]

lemma allocsOf_createdList_ge (plans : List (Option Bool)) :
    ∀ hc ac a : Nat, a ∈ allocsOf (createdList hc ac plans) → ac ≤ a := by
  induction plans with
  | nil => intro hc ac a ha; simp [createdList, allocsOf] at ha
  | cons p rest ih =>
    intro hc ac a ha
    cases p with
    | none =>
      rw [show createdList hc ac (none :: rest) =
            (none :: rest).map ResourceObjectCreateMetadata.ofPlan from rfl,
        allocsOf_map_ofPlan] at ha
      simp at ha
    | some b =>
      cases b with
      | true =>
        rw [show createdList hc ac (some true :: rest) =
              ⟨some true, some hc, some ac⟩ ::
                createdList (hc + 1) (ac + 1) rest from rfl,
          allocsOf_cons_some _ ac _ rfl] at ha
        rcases Finset.mem_insert.mp ha with h | h
        · omega
        · have := ih (hc + 1) (ac + 1) a h; omega
      | false =>
        rw [show createdList hc ac (some false :: rest) =
              ⟨some false, some hc, none⟩ ::
                createdList (hc + 1) ac rest from rfl,
          allocsOf_cons_none _ _ rfl] at ha
        exact ih (hc + 1) ac a ha

lemma createdList_handles (plans : List (Option Bool))
    (h : plans.all Option.isSome = true) :
    ∀ hc ac : Nat,
      (createdList hc ac plans).map (fun m => m.handle.getD 0) =
        List.range' hc plans.length := by
  induction plans with
  | nil => intro hc ac; rfl
  | cons p rest ih =>
    intro hc ac
    simp only [List.all_cons, Bool.and_eq_true] at h
    cases p with
    | none => simp [Option.isSome] at h
    | some b =>
      cases b with
      | true =>
        simp only [createdList, List.map_cons, List.length_cons,
          List.range'_succ]
        rw [ih h.2 (hc + 1) (ac + 1)]
        rfl
      | false =>
        simp only [createdList, List.map_cons, List.length_cons,
          List.range'_succ]
        rw [ih h.2 (hc + 1) ac]
        rfl

lemma allocIdxs_map_ofPlan (ps : List (Option Bool)) :
    ∀ i : Nat, allocIdxs i (ps.map ResourceObjectCreateMetadata.ofPlan) = [] := by
  induction ps with
  | nil => intro i; rfl
  | cons p rest ih =>
    intro i
    simp only [List.map_cons, allocIdxs]
    rw [show (ResourceObjectCreateMetadata.ofPlan p).allocation = none from rfl]
    simpa using ih (i + 1)

lemma allocIdxs_createdList (pre : List (Option Bool))
    (post : List (Option Bool)) (hpre : pre.all Option.isSome = true) :
    ∀ i hc ac : Nat,
      allocIdxs i (createdList hc ac (pre ++ none :: post)) =
        trueIdxs i pre := by
  induction pre with
  | nil =>
    intro i hc ac
    simp only [List.nil_append]
    rw [show createdList hc ac (none :: post) =
          (none :: post).map ResourceObjectCreateMetadata.ofPlan from rfl]
    rw [allocIdxs_map_ofPlan]
    rfl
  | cons p rest ih =>
    intro i hc ac
    simp only [List.all_cons, Bool.and_eq_true] at hpre
    cases p with
    | none => simp [Option.isSome] at hpre
    | some b =>
      cases b with
      | true =>
        simp only [List.cons_append]
        rw [show createdList hc ac (some true :: (rest ++ none :: post)) =
              ⟨some true, some hc, some ac⟩ ::
                createdList (hc + 1) (ac + 1) (rest ++ none :: post) from rfl]
        simp only [allocIdxs, trueIdxs]
        rw [ih hpre.2 (i + 1) (hc + 1) (ac + 1)]
        rfl
      | false =>
        simp only [List.cons_append]
        rw [show createdList hc ac (some false :: (rest ++ none :: post)) =
              ⟨some false, some hc, none⟩ ::
                createdList (hc + 1) ac (rest ++ none :: post) from rfl]
        simp only [allocIdxs, trueIdxs]
        rw [ih hpre.2 (i + 1) (hc + 1) ac]
        rfl

/-! Characterization of the create pass on freshly queued plans. -/

lemma createLoop_result (plans : List (Option Bool)) :
    ∀ (st : St) (done : List ResourceObjectCreateMetadata),
      (createLoop st done
          (plans.map ResourceObjectCreateMetadata.ofPlan)).2.1 =
        done ++ createdList st.nextHandle st.nextAlloc plans := by
  induction plans with
  | nil => intro st done; simp [createLoop_nil, createdList]
  | cons p rest ih =>
    intro st done
    cases p with
    | none =>
      rw [List.map_cons, createLoop_cons_fail st done _ _ rfl]
      rfl
    | some b =>
      cases b with
      | true =>
        rw [List.map_cons, createLoop_cons_true st done _ _ rfl, ih]
        simp [createdList, ResourceObjectCreateMetadata.ofPlan]
      | false =>
        rw [List.map_cons, createLoop_cons_false st done _ _ rfl, ih]
        simp [createdList, ResourceObjectCreateMetadata.ofPlan]

lemma createLoop_ok (plans : List (Option Bool)) :
    ∀ (st : St) (done : List ResourceObjectCreateMetadata),
      (createLoop st done
          (plans.map ResourceObjectCreateMetadata.ofPlan)).2.2 =
        plans.all Option.isSome := by
  induction plans with
  | nil => intro st done; simp [createLoop_nil]
  | cons p rest ih =>
    intro st done
    cases p with
    | none =>
      rw [List.map_cons, createLoop_cons_fail st done _ _ rfl]
      simp
    | some b =>
      cases b with
      | true =>
        rw [List.map_cons, createLoop_cons_true st done _ _ rfl, ih]
        simp
      | false =>
        rw [List.map_cons, createLoop_cons_false st done _ _ rfl, ih]
        simp

lemma createLoop_live (plans : List (Option Bool)) :
    ∀ (st : St) (done : List ResourceObjectCreateMetadata),
      (createLoop st done
          (plans.map ResourceObjectCreateMetadata.ofPlan)).1.live =
        st.live ∪ allocsOf (createdList st.nextHandle st.nextAlloc plans) := by
  induction plans with
  | nil => intro st done; simp [createLoop_nil, createdList, allocsOf]
  | cons p rest ih =>
    intro st done
    cases p with
    | none =>
      rw [List.map_cons, createLoop_cons_fail st done _ _ rfl]
      rw [show createdList st.nextHandle st.nextAlloc (none :: rest) =
            (none :: rest).map ResourceObjectCreateMetadata.ofPlan from rfl,
        allocsOf_map_ofPlan]
      simp [St.emit]
    | some b =>
      cases b with
      | true =>
        rw [List.map_cons, createLoop_cons_true st done _ _ rfl, ih]
        rw [show createdList st.nextHandle st.nextAlloc (some true :: rest) =
              ⟨some true, some st.nextHandle, some st.nextAlloc⟩ ::
                createdList (st.nextHandle + 1) (st.nextAlloc + 1) rest
              from rfl,
          allocsOf_cons_some _ st.nextAlloc _ rfl]
        simp [Finset.insert_union, Finset.union_insert]
      | false =>
        rw [List.map_cons, createLoop_cons_false st done _ _ rfl, ih]
        rw [show createdList st.nextHandle st.nextAlloc (some false :: rest) =
              ⟨some false, some st.nextHandle, none⟩ ::
                createdList (st.nextHandle + 1) st.nextAlloc rest from rfl,
          allocsOf_cons_none _ _ rfl]

lemma createLoop_events (plans : List (Option Bool)) :
    ∀ (st : St) (done : List ResourceObjectCreateMetadata),
      (createLoop st done
          (plans.map ResourceObjectCreateMetadata.ofPlan)).1.events =
        st.events ++
          (List.range' done.length (createCount plans)).map
            (fun i => Event.createCall i
              (othersIdx (done.length + plans.length) i)) := by
  induction plans with
  | nil => intro st done; simp [createLoop_nil, createCount]
  | cons p rest ih =>
    intro st done
    cases p with
    | none =>
      rw [List.map_cons, createLoop_cons_fail st done _ _ rfl]
      show st.events ++ [_] = _
      rw [show createCount (none :: rest) = 1 from rfl, List.range'_one]
      rw [splitter_indices]
      simp [ResourceObjectCreateMetadata.ofPlan]
    | some b =>
      cases b with
      | true =>
        rw [List.map_cons, createLoop_cons_true st done _ _ rfl, ih]
        rw [splitter_indices]
        rw [show createCount (some true :: rest) = createCount rest + 1
          from Nat.add_comm 1 (createCount rest), List.range'_succ]
        have h1 : (done ++
            [{ ResourceObjectCreateMetadata.ofPlan (some true) with
                handle := some st.nextHandle,
                allocation := some st.nextAlloc }]).length =
              done.length + 1 := by simp
        have h2 : (done ++
            ResourceObjectCreateMetadata.ofPlan (some true) ::
              rest.map ResourceObjectCreateMetadata.ofPlan).length =
              done.length + (rest.length + 1) := by simp
        rw [h1, h2]
        have h3 : done.length + 1 + rest.length =
            done.length + (rest.length + 1) := by omega
        rw [h3]
        simp [List.map_cons, List.append_assoc]
      | false =>
        rw [List.map_cons, createLoop_cons_false st done _ _ rfl, ih]
        rw [splitter_indices]
        rw [show createCount (some false :: rest) = createCount rest + 1
          from Nat.add_comm 1 (createCount rest), List.range'_succ]
        have h1 : (done ++
            [{ ResourceObjectCreateMetadata.ofPlan (some false) with
                handle := some st.nextHandle,
                allocation := none }]).length =
              done.length + 1 := by simp
        have h2 : (done ++
            ResourceObjectCreateMetadata.ofPlan (some false) ::
              rest.map ResourceObjectCreateMetadata.ofPlan).length =
              done.length + (rest.length + 1) := by simp
        rw [h1, h2]
        have h3 : done.length + 1 + rest.length =
            done.length + (rest.length + 1) := by omega
        rw [h3]
        simp [List.map_cons, List.append_assoc]

/-! Lemmas about reduce, destroy and free passes. -/

lemma reduce_fst (xs : List ResourceObjectCreateMetadata) :
    (ObjectManagerImpl.reduce_resource_objects xs).1 =
      xs.map (fun m => (m.reduce).1) := by
  induction xs with
  | nil => rfl
  | cons m rest ih =>
    cases h : m.allocation with
    | none =>
      simp [ObjectManagerImpl.reduce_resource_objects,
        ResourceObjectCreateMetadata.reduce, h, ih]
    | some a =>
      simp [ObjectManagerImpl.reduce_resource_objects,
        ResourceObjectCreateMetadata.reduce, h, ih]

lemma reduce_snd (xs : List ResourceObjectCreateMetadata) :
    (ObjectManagerImpl.reduce_resource_objects xs).2 =
      xs.filterMap (fun m => m.allocation) := by
  induction xs with
  | nil => rfl
  | cons m rest ih =>
    cases h : m.allocation with
    | none =>
      simp [ObjectManagerImpl.reduce_resource_objects,
        ResourceObjectCreateMetadata.reduce, h, ih]
    | some a =>
      simp [ObjectManagerImpl.reduce_resource_objects,
        ResourceObjectCreateMetadata.reduce, h, ih]

lemma destroyLoop_events (xs : List ResourceObjectData) :
    ∀ st : St, (destroyLoop st xs).events =
      st.events ++ (xs.map (fun d => Event.destroyCall d.handle)).reverse := by
  induction xs with
  | nil => intro st; simp [destroyLoop]
  | cons d rest ih =>
    intro st
    simp [destroyLoop, St.emit, ih st, List.reverse_cons]

lemma destroyLoop_live (xs : List ResourceObjectData) :
    ∀ st : St, (destroyLoop st xs).live = st.live := by
  induction xs with
  | nil => intro st; rfl
  | cons d rest ih => intro st; simp [destroyLoop, St.emit, ih st]

lemma freeLoop_events (as' : List Nat) :
    ∀ st : St, (freeLoop st as').events =
      st.events ++ as'.map Event.freeAlloc := by
  induction as' with
  | nil => intro st; simp [freeLoop]
  | cons a rest ih =>
    intro st
    simp [freeLoop, St.emit, St.free, ih]

lemma freeLoop_live (as' : List Nat) :
    ∀ st : St, (freeLoop st as').live = st.live \ as'.toFinset := by
  induction as' with
  | nil => intro st; simp [freeLoop]
  | cons a rest ih =>
    intro st
    rw [show freeLoop st (a :: rest) =
          freeLoop ((st.emit (.freeAlloc a)).free a) rest from rfl, ih]
    simp only [St.emit, St.free, List.toFinset_cons]
    ext b
    simp only [Finset.mem_sdiff, Finset.mem_erase, Finset.mem_insert]
    tauto

/-! Filtering helpers: a pure create-call trace contains no abort, release or
create-call-foreign events, and vice versa. -/

lemma abortCallIdxs_creates (l : List Nat) (f : Nat → List Nat) :
    abortCallIdxs (l.map (fun i => Event.createCall i (f i))) = [] := by
  induction l with
  | nil => rfl
  | cons x rest ih => simp [abortCallIdxs]

lemma releaseIdxs_creates (l : List Nat) (f : Nat → List Nat) :
    releaseIdxs (l.map (fun i => Event.createCall i (f i))) = [] := by
  induction l with
  | nil => rfl
  | cons x rest ih => simp [releaseIdxs]

lemma createCalls_creates (l : List Nat) (f : Nat → List Nat) :
    createCalls (l.map (fun i => Event.createCall i (f i))) =
      l.map (fun i => (i, f i)) := by
  induction l with
  | nil => rfl
  | cons x rest ih => simpa [createCalls] using ih

lemma createCalls_abortTrace (xs : List ResourceObjectCreateMetadata) :
    ∀ i : Nat, createCalls (abortTrace i xs) = [] := by
  induction xs with
  | nil => intro i; rfl
  | cons m rest ih =>
    intro i
    simp only [abortTrace, createCalls, List.filterMap_append]
    cases h : m.allocation with
    | none =>
      simp only [createCalls] at ih
      simp [h, ih]
    | some a =>
      simp only [createCalls] at ih
      simp [h, ih]

/-! Case lemmas for `build_resource_objects`. -/

lemma build_ok (plans : List (Option Bool)) (st : St)
    (h : plans.all Option.isSome = true) :
    ObjectManager.build_resource_objects st
        (plans.map ResourceObjectCreateMetadata.ofPlan) =
      ((createLoop st [] (plans.map ResourceObjectCreateMetadata.ofPlan)).1,
        .ok (ObjectManagerImpl.reduce_resource_objects
          (createLoop st []
            (plans.map ResourceObjectCreateMetadata.ofPlan)).2.1)) := by
  simp only [ObjectManager.build_resource_objects,
    ObjectManagerImpl.create_resource_objects]
  rw [createLoop_ok plans st [], h]
  simp

lemma build_fail (plans : List (Option Bool)) (st : St)
    (h : plans.all Option.isSome = false) :
    ObjectManager.build_resource_objects st
        (plans.map ResourceObjectCreateMetadata.ofPlan) =
      ((abortFrom
          (createLoop st [] (plans.map ResourceObjectCreateMetadata.ofPlan)).1
          0
          (createLoop st []
            (plans.map ResourceObjectCreateMetadata.ofPlan)).2.1).1,
        .error ()) := by
  simp only [ObjectManager.build_resource_objects,
    ObjectManagerImpl.create_resource_objects,
    ObjectManagerImpl.abort_resource_objects]
  rw [createLoop_ok plans st [], h]
  simp

lemma abortCallIdxs_append (a b : List Event) :
    abortCallIdxs (a ++ b) = abortCallIdxs a ++ abortCallIdxs b := by
  simp [abortCallIdxs]

lemma releaseIdxs_append (a b : List Event) :
    releaseIdxs (a ++ b) = releaseIdxs a ++ releaseIdxs b := by
  simp [releaseIdxs]

lemma createCalls_append (a b : List Event) :
    createCalls (a ++ b) = createCalls a ++ createCalls b := by
  simp [createCalls]

/-- C1 (counterexample): on the batch whose slot 0 succeeds (with an
allocation) and whose slot 1 fails (`m = 1`, `n = 2`), the claim says exactly
objects `0..m-1`, i.e. only object 0, have their abort invoked — the abort
trace would be `[0]`.  The code instead invokes abort on all slots in
descending order, producing the abort trace `[1, 0]`. -/
theorem c1_counterexample :
    ¬ (abortCallIdxs
          ((ObjectManager.build_resource_objects ⟨0, 0, ∅, []⟩
              ([some true, none].map
                ResourceObjectCreateMetadata.ofPlan)).1.events) =
        [0]) := by decide

/-- C1 (amended): when creation of object `m` (the first failure, `m =
pre.length`) fails, `build` invokes abort on ALL `n` slots in strictly
descending index order `n-1, …, 0` (a no-op on the slots at index `≥ m`,
which hold nothing); the allocations acquired by objects `0..m-1` are
released in strictly descending index order and none of them remains live
afterwards; the whole `build` reports failure (panics) and produces no
result. -/
theorem c1_abort_pass (pre post : List (Option Bool)) (st : St)
    (hpre : pre.all Option.isSome = true)
    (hlive : ∀ a ∈ st.live, a < st.nextAlloc) :
    (ObjectManager.build_resource_objects st
        ((pre ++ none :: post).map ResourceObjectCreateMetadata.ofPlan)).2 =
      .error () ∧
    abortCallIdxs
        ((ObjectManager.build_resource_objects st
            ((pre ++ none :: post).map
              ResourceObjectCreateMetadata.ofPlan)).1.events.drop
          st.events.length) =
      (List.range (pre ++ none :: post).length).reverse ∧
    releaseIdxs
        ((ObjectManager.build_resource_objects st
            ((pre ++ none :: post).map
              ResourceObjectCreateMetadata.ofPlan)).1.events.drop
          st.events.length) =
      (trueIdxs 0 pre).reverse ∧
    (ObjectManager.build_resource_objects st
        ((pre ++ none :: post).map ResourceObjectCreateMetadata.ofPlan)).1.live =
      st.live := by
  have hall : (pre ++ none :: post).all Option.isSome = false := by
    simp [List.all_append]
  rw [build_fail (pre ++ none :: post) st hall]
  have hX : (createLoop st []
      ((pre ++ none :: post).map ResourceObjectCreateMetadata.ofPlan)).2.1 =
      createdList st.nextHandle st.nextAlloc (pre ++ none :: post) := by
    simpa using createLoop_result (pre ++ none :: post) st []
  have hev1 : (createLoop st []
      ((pre ++ none :: post).map ResourceObjectCreateMetadata.ofPlan)).1.events =
      st.events ++
        (List.range' 0 (createCount (pre ++ none :: post))).map
          (fun i => Event.createCall i
            (othersIdx (0 + (pre ++ none :: post).length) i)) := by
    simpa using createLoop_events (pre ++ none :: post) st []
  have hev2 : (abortFrom
      (createLoop st []
        ((pre ++ none :: post).map ResourceObjectCreateMetadata.ofPlan)).1 0
      (createLoop st []
        ((pre ++ none :: post).map
          ResourceObjectCreateMetadata.ofPlan)).2.1).1.events =
      (createLoop st []
        ((pre ++ none :: post).map
          ResourceObjectCreateMetadata.ofPlan)).1.events ++
        abortTrace 0
          (createdList st.nextHandle st.nextAlloc (pre ++ none :: post)) := by
    rw [hX]
    exact abortFrom_events _ _ 0
  have hdrop : ((abortFrom
      (createLoop st []
        ((pre ++ none :: post).map ResourceObjectCreateMetadata.ofPlan)).1 0
      (createLoop st []
        ((pre ++ none :: post).map
          ResourceObjectCreateMetadata.ofPlan)).2.1).1.events.drop
        st.events.length) =
      (List.range' 0 (createCount (pre ++ none :: post))).map
          (fun i => Event.createCall i
            (othersIdx (0 + (pre ++ none :: post).length) i)) ++
        abortTrace 0
          (createdList st.nextHandle st.nextAlloc (pre ++ none :: post)) := by
    rw [hev2, hev1, List.append_assoc, List.drop_left]
  refine ⟨rfl, ?_, ?_, ?_⟩
  · rw [hdrop, abortCallIdxs_append, abortCallIdxs_creates,
      abortCallIdxs_abortTrace, createdList_length, List.nil_append,
      ← List.range_eq_range']
  · rw [hdrop, releaseIdxs_append, releaseIdxs_creates,
      releaseIdxs_abortTrace, allocIdxs_createdList pre post hpre,
      List.nil_append]
  · rw [abortFrom_live, createLoop_live, hX]
    ext b
    simp only [Finset.mem_sdiff, Finset.mem_union]
    constructor
    · rintro ⟨h1 | h1, h2⟩
      · exact h1
      · exact absurd h1 h2
    · intro hb
      refine ⟨Or.inl hb, fun hmem => ?_⟩
      have := allocsOf_createdList_ge (pre ++ none :: post)
        st.nextHandle st.nextAlloc b hmem
      have := hlive b hb
      omega

/-- C1 (witness for the amended theorem): instantiated at the batch
`[some true, none, some false]` (slot 0 succeeds with an allocation, slot 1
fails) starting from the empty state. -/
theorem c1_witness :
    ([some true].all Option.isSome = true) ∧
    (∀ a ∈ (⟨0, 0, ∅, []⟩ : St).live, a < (⟨0, 0, ∅, []⟩ : St).nextAlloc) ∧
    ((ObjectManager.build_resource_objects ⟨0, 0, ∅, []⟩
        (([some true] ++ none :: [some false]).map
          ResourceObjectCreateMetadata.ofPlan)).2 = .error () ∧
      abortCallIdxs
          ((ObjectManager.build_resource_objects ⟨0, 0, ∅, []⟩
              (([some true] ++ none :: [some false]).map
                ResourceObjectCreateMetadata.ofPlan)).1.events.drop
            (⟨0, 0, ∅, []⟩ : St).events.length) =
        (List.range ([some true] ++ none :: [some false]).length).reverse ∧
      releaseIdxs
          ((ObjectManager.build_resource_objects ⟨0, 0, ∅, []⟩
              (([some true] ++ none :: [some false]).map
                ResourceObjectCreateMetadata.ofPlan)).1.events.drop
            (⟨0, 0, ∅, []⟩ : St).events.length) =
        (trueIdxs 0 [some true]).reverse ∧
      (ObjectManager.build_resource_objects ⟨0, 0, ∅, []⟩
          (([some true] ++ none :: [some false]).map
            ResourceObjectCreateMetadata.ofPlan)).1.live =
        (⟨0, 0, ∅, []⟩ : St).live) :=
  ⟨by decide, by decide,
    c1_abort_pass [some true] [some false] ⟨0, 0, ∅, []⟩ (by decide)
      (by decide)⟩

/-- C2 (counterexample): on the batch `[fail, ok]` the claim says `build`
runs `create` on every slot exactly once in ascending order, so the
create-call trace would be `[(0, [1]), (1, [0])]`.  The code stops at the
first failure: slot 1's `create` is never invoked. -/
theorem c2_counterexample :
    ¬ (createCalls
          ((ObjectManager.build_resource_objects ⟨0, 0, ∅, []⟩
              ([none, some false].map
                ResourceObjectCreateMetadata.ofPlan)).1.events) =
        [(0, othersIdx 2 0), (1, othersIdx 2 1)]) := by decide

/-- C2 (amended): `build` invokes `create` in strictly ascending index order
`0, 1, 2, …`, each slot at most once, through the `Splitter`: the call on
slot `i` gets read-only access to exactly the other slots (every index of
the batch except `i`) while holding slot `i` exclusively.  Every slot is
created exactly once when all creations succeed; otherwise the calls stop at
the first failing slot (`createCount`). -/
theorem c2_create_ascending (plans : List (Option Bool)) (st : St) :
    createCalls
        ((ObjectManager.build_resource_objects st
            (plans.map ResourceObjectCreateMetadata.ofPlan)).1.events.drop
          st.events.length) =
      (List.range (createCount plans)).map
        (fun i => (i, othersIdx plans.length i)) := by
  cases h : plans.all Option.isSome with
  | true =>
    rw [build_ok plans st h]
    have hev : (createLoop st []
        (plans.map ResourceObjectCreateMetadata.ofPlan)).1.events =
        st.events ++
          (List.range' 0 (createCount plans)).map
            (fun i => Event.createCall i (othersIdx (0 + plans.length) i)) := by
      simpa using createLoop_events plans st []
    rw [hev, List.drop_left, createCalls_creates, ← List.range_eq_range',
      Nat.zero_add]
  | false =>
    rw [build_fail plans st h]
    have hX : (createLoop st []
        (plans.map ResourceObjectCreateMetadata.ofPlan)).2.1 =
        createdList st.nextHandle st.nextAlloc plans := by
      simpa using createLoop_result plans st []
    have hev : (createLoop st []
        (plans.map ResourceObjectCreateMetadata.ofPlan)).1.events =
        st.events ++
          (List.range' 0 (createCount plans)).map
            (fun i => Event.createCall i (othersIdx (0 + plans.length) i)) := by
      simpa using createLoop_events plans st []
    rw [abortFrom_events, hev, List.append_assoc, List.drop_left,
      createCalls_append, hX, createCalls_abortTrace, List.append_nil,
      createCalls_creates, ← List.range_eq_range', Nat.zero_add]

/-- C3: destroying a successfully built `ResourceObjectSet` invokes
per-object destruction on its objects in exactly the reverse of build order
(the objects sit in creation order — ascending fresh handles — and the
destroy calls walk them reversed), and afterwards frees every retained
allocation back to the allocator (one `freeAlloc` per retained allocation,
all after the destroy calls, and none of them stays live). -/
theorem c3_destroy_reverse (plans : List (Option Bool))
    (g : SynchronizationGroup) (st : St)
    (h : plans.all Option.isSome = true) :
    ∃ set : ResourceObjectSet,
      (ResourceObjectSetBuilder.build
          ⟨g, plans.map ResourceObjectCreateMetadata.ofPlan⟩ st).2 =
        .ok set ∧
      set.objects.map (fun d => d.handle) =
        List.range' st.nextHandle plans.length ∧
      (set.destroy
          (ResourceObjectSetBuilder.build
            ⟨g, plans.map ResourceObjectCreateMetadata.ofPlan⟩ st).1).events =
        (ResourceObjectSetBuilder.build
            ⟨g, plans.map ResourceObjectCreateMetadata.ofPlan⟩ st).1.events ++
          ((set.objects.map (fun d => Event.destroyCall d.handle)).reverse ++
            set.allocations.map Event.freeAlloc) ∧
      (set.destroy
          (ResourceObjectSetBuilder.build
            ⟨g, plans.map ResourceObjectCreateMetadata.ofPlan⟩ st).1).live =
        (ResourceObjectSetBuilder.build
            ⟨g, plans.map ResourceObjectCreateMetadata.ofPlan⟩ st).1.live \
          set.allocations.toFinset := by
  have hX : (createLoop st []
      (plans.map ResourceObjectCreateMetadata.ofPlan)).2.1 =
      createdList st.nextHandle st.nextAlloc plans := by
    simpa using createLoop_result plans st []
  rcases hq : ObjectManagerImpl.reduce_resource_objects
      ((createLoop st [] (plans.map ResourceObjectCreateMetadata.ofPlan)).2.1)
    with ⟨data, allocs⟩
  have hbuild : ResourceObjectSetBuilder.build
      ⟨g, plans.map ResourceObjectCreateMetadata.ofPlan⟩ st =
      ((createLoop st [] (plans.map ResourceObjectCreateMetadata.ofPlan)).1,
        .ok ⟨g, data, allocs⟩) := by
    simp only [ResourceObjectSetBuilder.build, build_ok plans st h, hq]
  have hdata : data =
      (ObjectManagerImpl.reduce_resource_objects
        ((createLoop st []
          (plans.map ResourceObjectCreateMetadata.ofPlan)).2.1)).1 := by
    rw [hq]
  refine ⟨⟨g, data, allocs⟩, ?_, ?_, ?_, ?_⟩
  · rw [hbuild]
  · show data.map (fun d => d.handle) = _
    rw [hdata, reduce_fst, hX, List.map_map]
    exact createdList_handles plans h st.nextHandle st.nextAlloc
  · rw [hbuild]
    show (ObjectManagerImpl.destroy_resource_objects _ data allocs).events = _
    rw [ObjectManagerImpl.destroy_resource_objects, freeLoop_events,
      destroyLoop_events, List.append_assoc]
  · rw [hbuild]
    show (ObjectManagerImpl.destroy_resource_objects _ data allocs).live = _
    rw [ObjectManagerImpl.destroy_resource_objects, freeLoop_live,
      destroyLoop_live]

/-- C3 (witness): instantiated at the two-slot all-success batch
`[some true, some false]`. -/
theorem c3_witness :
    ([some true, some false].all Option.isSome = true) ∧
    (∃ set : ResourceObjectSet,
      (ResourceObjectSetBuilder.build
          ⟨⟨⟨0⟩, 0⟩, [some true, some false].map
            ResourceObjectCreateMetadata.ofPlan⟩ ⟨0, 0, ∅, []⟩).2 =
        .ok set ∧
      set.objects.map (fun d => d.handle) =
        List.range' (⟨0, 0, ∅, []⟩ : St).nextHandle
          [some true, some false].length ∧
      (set.destroy
          (ResourceObjectSetBuilder.build
            ⟨⟨⟨0⟩, 0⟩, [some true, some false].map
              ResourceObjectCreateMetadata.ofPlan⟩ ⟨0, 0, ∅, []⟩).1).events =
        (ResourceObjectSetBuilder.build
            ⟨⟨⟨0⟩, 0⟩, [some true, some false].map
              ResourceObjectCreateMetadata.ofPlan⟩
            ⟨0, 0, ∅, []⟩).1.events ++
          ((set.objects.map (fun d => Event.destroyCall d.handle)).reverse ++
            set.allocations.map Event.freeAlloc) ∧
      (set.destroy
          (ResourceObjectSetBuilder.build
            ⟨⟨⟨0⟩, 0⟩, [some true, some false].map
              ResourceObjectCreateMetadata.ofPlan⟩ ⟨0, 0, ∅, []⟩).1).live =
        (ResourceObjectSetBuilder.build
            ⟨⟨⟨0⟩, 0⟩, [some true, some false].map
              ResourceObjectCreateMetadata.ofPlan⟩ ⟨0, 0, ∅, []⟩).1.live \
          set.allocations.toFinset) :=
  ⟨by decide,
    c3_destroy_reverse [some true, some false] ⟨⟨0⟩, 0⟩ ⟨0, 0, ∅, []⟩
      (by decide)⟩

/-- C4: `create_resource_object_set` fails fast (a panic, modelled as the
error outcome) when the group's manager is not this manager — without ever
touching device or allocator state, which the embedded function does not
even receive — and otherwise returns a fresh builder bound to exactly the
given group. -/
theorem c4_group_manager_check (m : ObjectManager)
    (g : SynchronizationGroup) :
    (ObjectManager.eq g.get_manager m = false →
      ObjectManager.create_resource_object_set m g =
        .error "Synchronization group belongs to different object manager") ∧
    (ObjectManager.eq g.get_manager m = true →
      ObjectManager.create_resource_object_set m g =
        .ok (ResourceObjectSetBuilder.new g) ∧
      (ResourceObjectSetBuilder.new g).synchronization_group = g ∧
      (ResourceObjectSetBuilder.new g).requests = []) := by
  constructor
  · intro hne
    simp [ObjectManager.create_resource_object_set, hne]
  · intro heq
    simp [ObjectManager.create_resource_object_set, heq,
      ResourceObjectSetBuilder.new]

/-- C4 (witness): a group of manager 1 is rejected by manager 0; a group of
manager 0 is accepted by manager 0 and the returned builder is bound to it. -/
theorem c4_witness :
    (ObjectManager.eq (SynchronizationGroup.get_manager ⟨⟨1⟩, 0⟩) ⟨0⟩ =
        false ∧
      ObjectManager.create_resource_object_set ⟨0⟩ ⟨⟨1⟩, 0⟩ =
        .error "Synchronization group belongs to different object manager") ∧
    (ObjectManager.eq (SynchronizationGroup.get_manager ⟨⟨0⟩, 5⟩) ⟨0⟩ =
        true ∧
      ObjectManager.create_resource_object_set ⟨0⟩ ⟨⟨0⟩, 5⟩ =
        .ok (ResourceObjectSetBuilder.new ⟨⟨0⟩, 5⟩)) :=
  ⟨⟨by decide, (c4_group_manager_check ⟨0⟩ ⟨⟨1⟩, 0⟩).1 (by decide)⟩,
    ⟨by decide, ((c4_group_manager_check ⟨0⟩ ⟨⟨0⟩, 5⟩).2 (by decide)).1⟩⟩

/-- C5 (counterexample): on a two-slot batch where slot 0 retained no
allocation and slot 1 retained one, the claim's "the allocation sequence is
parallel to it" would force the two sequences to have equal length, one
entry per slot; the code drops the `None` entries, so the allocation
sequence has length 1 against 2 data entries. -/
theorem c5_counterexample :
    ¬ ((ObjectManagerImpl.reduce_resource_objects
          [⟨some false, some 5, none⟩, ⟨some true, some 6, some 0⟩]).2.length =
        (ObjectManagerImpl.reduce_resource_objects
          [⟨some false, some 5, none⟩,
            ⟨some true, some 6, some 0⟩]).1.length) := by
  decide

/-- C5 (amended): the reduce step splits each slot into its
`ResourceObjectData` and its optional `Allocation` and collects them into
two sequences preserving original order: the data sequence has exactly one
element per slot at the slot's ordinal position, while the allocation
sequence contains exactly the allocations of the slots that retained one,
in ascending slot order (it is an order-preserving projection, not an
index-parallel sequence). -/
theorem c5_reduce_sequences (objects : List ResourceObjectCreateMetadata) :
    (ObjectManagerImpl.reduce_resource_objects objects).1.length =
      objects.length ∧
    (∀ i : Nat,
      (ObjectManagerImpl.reduce_resource_objects objects).1[i]? =
        (objects[i]?).map (fun m => (m.reduce).1)) ∧
    (ObjectManagerImpl.reduce_resource_objects objects).2 =
      objects.filterMap (fun m => (m.reduce).2) := by
  refine ⟨?_, ?_, ?_⟩
  · rw [reduce_fst, List.length_map]
  · intro i
    rw [reduce_fst, List.getElem?_map]
  · rw [reduce_snd]
    rfl

lemma syncGroup_eq_iff (a b : SynchronizationGroup) :
    SynchronizationGroup.eq a b = true ↔
      (a.semaphore = b.semaphore ∧ a.manager.uuid = b.manager.uuid) := by
  simp [SynchronizationGroup.eq, ObjectManager.eq]

/-- C6: `SynchronizationGroup` equality is an equivalence relation (it is
reflexive, symmetric and transitive) determined exactly by the pair
(semaphore handle, manager uuid), and the groups produced by two successive
`create_synchronization_group` calls on the same manager are never equal
(the device hands the second call a fresh semaphore handle). -/
theorem c6_group_equality :
    (∀ g : SynchronizationGroup, SynchronizationGroup.eq g g = true) ∧
    (∀ a b : SynchronizationGroup,
      SynchronizationGroup.eq a b = SynchronizationGroup.eq b a) ∧
    (∀ a b c : SynchronizationGroup,
      SynchronizationGroup.eq a b = true →
        SynchronizationGroup.eq b c = true →
          SynchronizationGroup.eq a c = true) ∧
    (∀ a b : SynchronizationGroup,
      SynchronizationGroup.eq a b = true ↔
        (a.semaphore = b.semaphore ∧ a.manager.uuid = b.manager.uuid)) ∧
    (∀ (m : ObjectManager) (d : DeviceState),
      SynchronizationGroup.eq (m.create_synchronization_group d).1
        (ObjectManager.create_synchronization_group m
          (m.create_synchronization_group d).2).1 = false) := by
  refine ⟨?_, ?_, ?_, ?_, ?_⟩
  · intro g
    rw [syncGroup_eq_iff]
    exact ⟨rfl, rfl⟩
  · intro a b
    rw [Bool.eq_iff_iff, syncGroup_eq_iff, syncGroup_eq_iff]
    constructor <;> rintro ⟨h1, h2⟩ <;> exact ⟨h1.symm, h2.symm⟩
  · intro a b c hab hbc
    rw [syncGroup_eq_iff] at hab hbc ⊢
    exact ⟨hab.1.trans hbc.1, hab.2.trans hbc.2⟩
  · intro a b
    exact syncGroup_eq_iff a b
  · intro m d
    simp [ObjectManager.create_synchronization_group,
      ObjectManagerImpl.create_group_semaphore, DeviceState.create_semaphore,
      SynchronizationGroup.new, SynchronizationGroup.eq, ObjectManager.eq]

/-- C6 (witness): a group equals itself; the two groups from two successive
calls on manager 3 starting from the empty device are unequal; transitivity
applied at three equal concrete groups. -/
theorem c6_witness :
    SynchronizationGroup.eq ⟨⟨3⟩, 7⟩ ⟨⟨3⟩, 7⟩ = true ∧
    SynchronizationGroup.eq
        ((ObjectManager.create_synchronization_group ⟨3⟩ ⟨0, []⟩).1)
        ((ObjectManager.create_synchronization_group ⟨3⟩
          (ObjectManager.create_synchronization_group ⟨3⟩ ⟨0, []⟩).2).1) =
      false ∧
    SynchronizationGroup.eq ⟨⟨2⟩, 4⟩ ⟨⟨2⟩, 4⟩ = true :=
  ⟨c6_group_equality.1 ⟨⟨3⟩, 7⟩,
    c6_group_equality.2.2.2.2 ⟨3⟩ ⟨0, []⟩,
    c6_group_equality.2.2.1 ⟨⟨2⟩, 4⟩ ⟨⟨2⟩, 4⟩ ⟨⟨2⟩, 4⟩ (by decide) (by decide)⟩

/-- C9: the group vended by `create_synchronization_group` carries exactly
this manager, and its semaphore handle is fresh (not present on a
well-formed device beforehand) and is recorded on the device afterwards as a
TIMELINE semaphore with initial value 0. -/
theorem c9_fresh_timeline_semaphore (m : ObjectManager) (d : DeviceState) :
    (d.wf →
      d.find (m.create_synchronization_group d).1.semaphore = none) ∧
    (m.create_synchronization_group d).2.find
        (m.create_synchronization_group d).1.semaphore =
      some ⟨SemaphoreType.timeline, 0⟩ ∧
    (m.create_synchronization_group d).1.manager = m := by
  refine ⟨?_, ?_, rfl⟩
  · intro hwf
    show d.find d.nextSem = none
    rw [DeviceState.find, List.find?_eq_none.mpr]
    · rfl
    · intro p hp hcontra
      have h1 := hwf p hp
      have h2 : p.1 = d.nextSem := by simpa using hcontra
      omega
  · show DeviceState.find
      ⟨d.nextSem + 1, (d.nextSem, ⟨SemaphoreType.timeline, 0⟩) :: d.semaphores⟩
      d.nextSem = some ⟨SemaphoreType.timeline, 0⟩
    simp [DeviceState.find, List.find?]

/-- C9 (witness): instantiated at manager 4 and the well-formed device
holding one binary semaphore with handle 0. -/
theorem c9_witness :
    (DeviceState.wf ⟨1, [(0, ⟨SemaphoreType.binary, 7⟩)]⟩) ∧
    DeviceState.find ⟨1, [(0, ⟨SemaphoreType.binary, 7⟩)]⟩
        (ObjectManager.create_synchronization_group ⟨4⟩
          ⟨1, [(0, ⟨SemaphoreType.binary, 7⟩)]⟩).1.semaphore = none ∧
    (ObjectManager.create_synchronization_group ⟨4⟩
        ⟨1, [(0, ⟨SemaphoreType.binary, 7⟩)]⟩).2.find
        (ObjectManager.create_synchronization_group ⟨4⟩
          ⟨1, [(0, ⟨SemaphoreType.binary, 7⟩)]⟩).1.semaphore =
      some ⟨SemaphoreType.timeline, 0⟩ ∧
    (ObjectManager.create_synchronization_group ⟨4⟩
        ⟨1, [(0, ⟨SemaphoreType.binary, 7⟩)]⟩).1.manager = ⟨4⟩ :=
  ⟨by decide,
    (c9_fresh_timeline_semaphore ⟨4⟩ _).1 (by decide),
    (c9_fresh_timeline_semaphore ⟨4⟩ _).2.1,
    (c9_fresh_timeline_semaphore ⟨4⟩ _).2.2⟩

/-- C7: at the foreign boundary (`b4d_init` and `b4d_create_static_mesh`), a
null handle or a fault raised inside the call is never surfaced as a
recoverable return value: it yields the terminated outcome (an error log
line followed by exit code 1), and conversely a normal return implies every
handle was non-null and no fault occurred. -/
theorem c7_boundary_termination (σ : Type) (surface : CPtr σ)
    (mk : σ → Option Blaze4D) (b4d : CPtr Blaze4D) (data : CPtr CMeshData) :
    ((surface = CPtr.null ∨ ∃ s, surface = CPtr.valid s ∧ mk s = none) →
      ∃ log, b4d_init surface mk = .terminated log 1) ∧
    (∀ r, b4d_init surface mk = .ret r →
      ∃ s b, surface = CPtr.valid s ∧ mk s = some b ∧ r = CPtr.valid b) ∧
    ((b4d = CPtr.null ∨ data = CPtr.null ∨
        (∃ b d', b4d = CPtr.valid b ∧ data = CPtr.valid d' ∧
          ((∃ e, d'.to_mesh_data = .error e) ∨
            (∃ md, d'.to_mesh_data = .ok md ∧
              b.create_static_mesh md = .error ())))) →
      ∃ log, b4d_create_static_mesh b4d data = .terminated log 1) ∧
    (∀ v, b4d_create_static_mesh b4d data = .ret v →
      ∃ b d' md, b4d = CPtr.valid b ∧ data = CPtr.valid d' ∧
        d'.to_mesh_data = .ok md ∧ b.create_static_mesh md = .ok v) := by
  refine ⟨?_, ?_, ?_, ?_⟩
  · rintro (rfl | ⟨s, rfl, hmk⟩)
    · exact ⟨_, rfl⟩
    · exact ⟨"panic in b4d_init", by simp [b4d_init, hmk]⟩
  · intro r hr
    cases surface with
    | null => simp [b4d_init] at hr
    | valid s =>
      cases hmk : mk s with
      | none => simp [b4d_init, hmk] at hr
      | some b =>
        simp only [b4d_init, hmk] at hr
        cases hr
        exact ⟨s, b, rfl, hmk, rfl⟩
  · rintro (rfl | rfl | ⟨b, d', rfl, rfl, ⟨e, he⟩ | ⟨md, hmd, hfault⟩⟩)
    · exact ⟨_, rfl⟩
    · cases b4d with
      | null => exact ⟨_, rfl⟩
      | valid b => exact ⟨_, rfl⟩
    · exact ⟨"panic in b4d_create_static_mesh",
        by simp [b4d_create_static_mesh, he]⟩
    · exact ⟨"panic in b4d_create_static_mesh",
        by simp [b4d_create_static_mesh, hmd, hfault]⟩
  · intro v hv
    cases b4d with
    | null => simp [b4d_create_static_mesh] at hv
    | valid b =>
      cases data with
      | null => simp [b4d_create_static_mesh] at hv
      | valid d' =>
        cases hmd : d'.to_mesh_data with
        | error e => simp [b4d_create_static_mesh, hmd] at hv
        | ok md =>
          cases hcr : b.create_static_mesh md with
          | error e => simp [b4d_create_static_mesh, hmd, hcr] at hv
          | ok meshId =>
            simp only [b4d_create_static_mesh, hmd, hcr] at hv
            cases hv
            exact ⟨b, d', md, rfl, rfl, hmd, hcr⟩

/-- C7 (witness): a null surface pointer terminates `b4d_init`; a valid
`b4d` whose core faults on `create_static_mesh` (and a mesh description with
a null index pointer) terminates `b4d_create_static_mesh`. -/
theorem c7_witness :
    (∃ log, b4d_init (CPtr.null : CPtr Nat) (fun _ => none) =
      .terminated log 1) ∧
    (∃ log, b4d_create_static_mesh
        (CPtr.valid ⟨fun _ => Except.error (), fun _ => none⟩)
        (CPtr.valid ⟨some [], none, 0, 0⟩) = .terminated log 1) :=
  ⟨(c7_boundary_termination Nat CPtr.null (fun _ => none) CPtr.null
      CPtr.null).1 (Or.inl rfl),
    (c7_boundary_termination Nat CPtr.null (fun _ => none)
        (CPtr.valid ⟨fun _ => Except.error (), fun _ => none⟩)
        (CPtr.valid ⟨some [], none, 0, 0⟩)).2.2.1
      (Or.inr (Or.inr ⟨_, _, rfl, rfl, Or.inl ⟨"Index data pointer is null",
        rfl⟩⟩))⟩

/-- C8: a mesh description whose data pointers are non-null converts to a
`MeshData` carrying exactly the boundary's fields — the vertex byte buffer,
the index byte buffer, the vertex stride and the index count — and every
successful conversion fixes the index element width to the 16-bit type,
regardless of input. -/
theorem c8_mesh_fields (c : CMeshData) :
    (∀ vd idxd, c.vertex_data = some vd → c.index_data = some idxd →
      c.to_mesh_data =
        .ok ⟨vd, idxd, c.vertex_stride, c.index_count, IndexType.uint16⟩) ∧
    (∀ md, c.to_mesh_data = .ok md → md.index_type = IndexType.uint16) := by
  constructor
  · intro vd idxd h1 h2
    simp [CMeshData.to_mesh_data, h1, h2]
  · intro md h
    cases hv : c.vertex_data with
    | none => simp [CMeshData.to_mesh_data, hv] at h
    | some vd =>
      cases hi : c.index_data with
      | none => simp [CMeshData.to_mesh_data, hv, hi] at h
      | some idxd =>
        simp only [CMeshData.to_mesh_data, hv, hi] at h
        cases h
        rfl

/-- C8 (witness): instantiated at the description with vertex bytes
`[1, 2]`, index bytes `[3]`, stride 8 and index count 1. -/
theorem c8_witness :
    CMeshData.to_mesh_data ⟨some [1, 2], some [3], 8, 1⟩ =
      .ok ⟨[1, 2], [3], 8, 1, IndexType.uint16⟩ :=
  (c8_mesh_fields ⟨some [1, 2], some [3], 8, 1⟩).1 [1, 2] [3] rfl rfl

/-- C10: for a valid `b4d` handle, `b4d_start_frame` returns the null
pointer exactly when the underlying `try_start_frame` returns `None`, and a
produced recorder is returned as a (non-null) valid pointer to exactly that
recorder. -/
theorem c10_start_frame (b : Blaze4D) (w h : Nat) :
    (b4d_start_frame (CPtr.valid b) w h = .ret CPtr.null ↔
      b.try_start_frame (w, h) = none) ∧
    (∀ r, b.try_start_frame (w, h) = some r →
      b4d_start_frame (CPtr.valid b) w h = .ret (CPtr.valid r)) := by
  constructor
  · cases hf : b.try_start_frame (w, h) with
    | none => simp [b4d_start_frame, hf]
    | some r => simp [b4d_start_frame, hf]
  · intro r hf
    simp [b4d_start_frame, hf]

/-- C10 (witness): a core that yields no frame gives the null pointer; a
core that yields recorder 7 gives a valid pointer to recorder 7. -/
theorem c10_witness :
    b4d_start_frame (CPtr.valid ⟨fun _ => Except.ok 0, fun _ => none⟩) 3 4 =
      .ret CPtr.null ∧
    b4d_start_frame
        (CPtr.valid ⟨fun _ => Except.ok 0, fun _ => some ⟨7⟩⟩) 3 4 =
      .ret (CPtr.valid ⟨7⟩) :=
  ⟨(c10_start_frame ⟨fun _ => Except.ok 0, fun _ => none⟩ 3 4).1.mpr rfl,
    (c10_start_frame ⟨fun _ => Except.ok 0, fun _ => some ⟨7⟩⟩ 3 4).2 ⟨7⟩ rfl⟩

end B4D
